import Mathlib

/-!
Shallow embedding of the `windows-executor` crate (src/lib.rs, src/waker.rs,
src/sync/message_window.rs).

Machine-level Win32 quantities (handles, thread ids, window handles, message
codes, pointers) are modelled as `Nat`; a null pointer / empty slot is
`Option.none`.  OS behaviour at the FFI boundary (success/failure of a call,
the last-error code it sets) is supplied by explicit environment records, so
every Rust function becomes a total Lean function from its inputs and the
environment to its result, its updated state and a trace of the effects it
performed, in the order it performed them.
-/

namespace WinExec

/-! ## Win32 message constants used by the sources -/

/-- `WM_NULL`, the content-free sentinel message posted by the waker. -/
def WM_NULL : Nat := 0

/-- `WM_CREATE`, delivered synchronously during `CreateWindowExW`. -/
def WM_CREATE : Nat := 1

/-! ## OS handle table (kernel state backing `DuplicateHandle` / `CloseHandle`)

`src/waker.rs` duplicates a thread handle on every waker construction and
clone, and closes that handle on drop.  The kernel's handle table is modelled
as the set of open handle values together with a fresh-handle counter; a
duplication hands out the next fresh value. -/

structure OsHandles where
  nextHandle : Nat
  openHandles : Finset Nat
  deriving DecidableEq

/-- Every open handle is below the fresh counter, so freshly issued handles
are never already open. -/
def OsHandles.Fresh (st : OsHandles) : Prop :=
  ∀ h ∈ st.openHandles, h < st.nextHandle

instance (st : OsHandles) : Decidable st.Fresh := by
  unfold OsHandles.Fresh; infer_instance

/-- `DuplicateHandle(GetCurrentProcess(), thread, ..., &mut handle, ...)`:
issues a fresh, independently closeable handle referring to the same thread
as the source.  Returns the new handle value. -/
def duplicateHandle (st : OsHandles) : Nat × OsHandles :=
  (st.nextHandle, ⟨st.nextHandle + 1, insert st.nextHandle st.openHandles⟩)

/-- `CloseHandle(h)`: releases the handle.  The returned flag records whether
`h` was actually open (a `false` is a double close). -/
def closeHandle (h : Nat) (st : OsHandles) : Bool × OsHandles :=
  (decide (h ∈ st.openHandles), ⟨st.nextHandle, st.openHandles.erase h⟩)

/-! ## src/waker.rs -/

/-- Outcome of a modelled Rust function that can `panic!`: either a normal
result or a propagated panic carrying the OS error code it reported. -/
inductive OsOutcome (α : Type) where
  | ok (a : α)
  | panicked (code : Nat)
  deriving DecidableEq

/-- `waker::new_raw(thread)` on the success path of `DuplicateHandle`: the
`RawWaker`'s data pointer is the freshly duplicated handle.  (On failure the
source panics with the OS error; the fatal path takes no further action and
plays no role in the claims about clone/drop accounting.) -/
def new_raw (st : OsHandles) : Nat × OsHandles :=
  duplicateHandle st

/-- The `clone` entry of the waker vtable: `new_raw(handle)` — it duplicates
again from the stored handle, producing an independent OS resource rather
than bumping any shared count.  The argument is the source handle; the result
is the fresh handle of the clone. -/
def wakerClone (_source : Nat) (st : OsHandles) : Nat × OsHandles :=
  new_raw st

/-- The `drop` entry of the waker vtable: `CloseHandle(handle)`. -/
def wakerDrop (h : Nat) (st : OsHandles) : Bool × OsHandles :=
  closeHandle h st

/-- Make `n` successive clones from a base handle, as `n` vtable `clone`
calls; returns the list of handles issued, in order. -/
def mkClones (base : Nat) : Nat → OsHandles → List Nat × OsHandles
  | 0, st => ([], st)
  | n + 1, st =>
    let h := (wakerClone base st).1
    let p := mkClones base n (wakerClone base st).2
    (h :: p.1, p.2)

/-- Drop a list of waker handles in the given order; returns the list of
per-close success flags (in order) and the final handle table. -/
def releaseAll : List Nat → OsHandles → List Bool × OsHandles
  | [], st => ([], st)
  | h :: rest, st =>
    let ok₁ := (wakerDrop h st).1
    let p := releaseAll rest (wakerDrop h st).2
    (ok₁ :: p.1, p.2)

/-- The `n` consecutive handle values starting at `start` (the values a run
of `n` duplications hands out). -/
def handleSeq (start : Nat) : Nat → List Nat
  | 0 => []
  | n + 1 => start :: handleSeq (start + 1) n

/-- Environment for `wake_by_ref`: what `GetThreadId` resolves a handle to
(`none` models the failure return 0, e.g. the thread is gone), whether
`PostThreadMessageW` to a given thread id succeeds, and the thread-local
last-error code a failing call leaves behind. -/
structure WakeEnv where
  threadIdOf : Nat → Option Nat
  postOk : Nat → Bool
  lastError : Nat

/-- Log records emitted by `wake_by_ref` on its two non-fatal failure paths. -/
inductive WakeLog where
  | resolveFailed (code : Nat)
  | postFailed (code : Nat)
  deriving DecidableEq

/-- What a `wake_by_ref` call did: the sentinel message it posted (thread id,
message, wparam, lparam), if any, and the log records it emitted. -/
structure WakeOutput where
  posted : Option (Nat × Nat × Nat × Nat)
  logs : List WakeLog
  deriving DecidableEq

/-- `waker::wake_by_ref(ptr)`: resolve the thread id of the stored handle;
on failure log and return.  Otherwise post `WM_NULL` (0, 0) to that thread's
queue; on failure log and return.  No path panics, blocks or returns an
error. -/
def wake_by_ref (env : WakeEnv) (h : Nat) : OsOutcome WakeOutput :=
  match env.threadIdOf h with
  | none => .ok ⟨none, [.resolveFailed env.lastError]⟩
  | some tid =>
    if env.postOk tid then
      .ok ⟨some (tid, WM_NULL, 0, 0), []⟩
    else
      .ok ⟨none, [.postFailed env.lastError]⟩

/-! ## src/lib.rs — `block_on` -/

/-- Result of one poll of the future. -/
inductive PollResult (T : Type) where
  | ready (v : T)
  | pending
  deriving DecidableEq

/-- The future handed to `block_on`, abstracted to its observable behaviour:
`poll` advances it (possibly mutating the state `σ` it closes over), and
`dispatch` is the effect on that state of `TranslateMessage`/
`DispatchMessageW` running window callbacks for a retrieved message `M`. -/
structure FutureModel (σ M T : Type) where
  poll : σ → PollResult T × σ
  dispatch : σ → M → σ

/-- One outcome of the blocking `GetMessageW` call: `-1` (error), `0`
(`WM_QUIT`), or a retrieved message. -/
inductive QueueItem (M : Type) where
  | error (code : Nat)
  | quit
  | message (m : M)
  deriving DecidableEq

/-- Actions `block_on` performs, in order: polling the future, blocking on
`GetMessageW`, dispatching a retrieved message. -/
inductive LoopAction (M : Type) where
  | polled
  | waited
  | dispatched (m : M)
  deriving DecidableEq

/-- How a `block_on` run ends.  `blocked` is the run whose queue script ran
out while the loop was inside the unbounded `GetMessageW` wait. -/
inductive LoopOutcome (T : Type) where
  | ok (v : T)
  | shouldExit
  | panicked (code : Nat)
  | blocked
  deriving DecidableEq

/-- `block_on(fut)`, driven by a script `q` of successive `GetMessageW`
outcomes.  Mirrors the source loop: poll; if `Ready` return `Ok` at once;
otherwise wait, and on `-1` panic with the OS error, on `0` return
`Err(ShouldExit)`, on a message translate-and-dispatch it and loop.  Returns
the outcome and the trace of actions performed, in order. -/
def block_on (F : FutureModel σ M T) :
    List (QueueItem M) → σ → LoopOutcome T × List (LoopAction M)
  | [], s =>
    match F.poll s with
    | (.ready v, _) => (.ok v, [.polled])
    | (.pending, _) => (.blocked, [.polled, .waited])
  | item :: rest, s =>
    match F.poll s with
    | (.ready v, _) => (.ok v, [.polled])
    | (.pending, s₁) =>
      match item with
      | .error c => (.panicked c, [.polled, .waited])
      | .quit => (.shouldExit, [.polled, .waited])
      | .message m =>
        let p := block_on F rest (F.dispatch s₁ m)
        (p.1, .polled :: .waited :: .dispatched m :: p.2)

/-- Every `waited` in the trace comes immediately after a `polled`. -/
def waitsGuarded : List (LoopAction M) → Bool
  | [] => true
  | .waited :: _ => false
  | .polled :: .waited :: rest => waitsGuarded rest
  | .polled :: rest => waitsGuarded rest
  | .dispatched _ :: rest => waitsGuarded rest

/-- Last element of an action trace. -/
def lastAction : List (LoopAction M) → Option (LoopAction M)
  | [] => none
  | [a] => some a
  | _ :: b :: rest => lastAction (b :: rest)

/-! ## src/sync/message_window.rs

The heap cell `RefCell<Inner<Msg>>` shared between the `MessageWindow` handle
and the window callback is modelled as an association list from addresses to
cell contents; a live cell is one present in the list.  The window's
`GWLP_USERDATA` per-instance slot is an `Option Nat` (`none` is the null
pointer Windows initialises the slot to at window creation).  The model
tracks one message window, which is all the claims mention. -/

/-- `Inner<Msg>`: the shared state — at most one buffered decoded message and
at most one pending waker (wakers are identified by a `Nat`). -/
structure Inner (Msg : Type) where
  message : Option Msg
  waker : Option Nat
  deriving DecidableEq

/-- Association-list heap lookup (dereference of an `InnerPtr`). -/
def heapGet (h : List (Nat × Inner Msg)) (a : Nat) : Option (Inner Msg) :=
  match h with
  | [] => none
  | (b, x) :: rest => if b = a then some x else heapGet rest a

/-- Association-list heap store (write through an `InnerPtr`). -/
def heapSet (h : List (Nat × Inner Msg)) (a : Nat) (x : Inner Msg) :
    List (Nat × Inner Msg) :=
  match h with
  | [] => [(a, x)]
  | (b, y) :: rest => if b = a then (b, x) :: rest else (b, y) :: heapSet rest a x

/-- Deallocate a heap cell (`drop(Box::from_raw(ptr))`). -/
def heapRemove (h : List (Nat × Inner Msg)) (a : Nat) : List (Nat × Inner Msg) :=
  match h with
  | [] => []
  | (b, y) :: rest => if b = a then rest else (b, y) :: heapRemove rest a

/-- The class registry behind `get_class`: the single `static CLASS:
OnceLock<..>` inside the generic `get_class::<Msg>`.  A `static` item in a
generic Rust function is not instantiated per type parameter — there is
exactly one, shared by every monomorphization — so the registry holds at most
one registration for the whole process.  It records the type tag `Msg` whose
`wnd_proc::<Msg>` was registered as the class callback (types are identified
by `Nat` tags). -/
structure ClassRegistry where
  registered : Option Nat
  deriving DecidableEq

/-- `get_class::<Msg>()` for the type with tag `tag`, on the success path of
`RegisterClassExW` (failure is a fatal panic).  Returns the class to use for
window creation, identified by the type tag of the `wnd_proc` it was
registered with, and the updated registry: a cached registration is returned
as is, otherwise the class is registered now with `wnd_proc::<tag>`. -/
def get_class (tag : Nat) (reg : ClassRegistry) : Nat × ClassRegistry :=
  match reg.registered with
  | some t => (t, reg)
  | none => (tag, ⟨some tag⟩)

/-- Mutable state the message-window code touches: the class registry, the
heap of `Inner` cells with its allocation cursor, the window's
`GWLP_USERDATA` slot, and the thread's last-error code. -/
structure SysState (Msg : Type) where
  registry : ClassRegistry
  heap : List (Nat × Inner Msg)
  nextAddr : Nat
  userdata : Option Nat
  lastError : Nat
  deriving DecidableEq

/-- `MessageWindow<Msg>`: the window handle and the raw `InnerPtr` kept in
the struct itself (used directly by `poll_next` and `drop`). -/
structure MessageWindow where
  hwnd : Nat
  inner : Nat
  deriving DecidableEq

/-- A decode capability: `Msg::from_message(hwnd, msg, wparam, lparam)`. -/
def FromMessage (Msg : Type) : Type := Nat → Nat → Nat → Nat → Option Msg

/-- `GetWindowLongPtrW(hwnd, GWLP_USERDATA)` read, as `get_inner_ptr`:
`none` when the slot holds null. -/
def get_inner_ptr (st : SysState Msg) : Option Nat :=
  st.userdata

/-- `SetWindowLongPtrW(hwnd, GWLP_USERDATA, ptr)`, as `swap_inner_ptr`:
stores `p` and returns the previous slot value. -/
def swap_inner_ptr (st : SysState Msg) (p : Option Nat) :
    Option Nat × SysState Msg :=
  (st.userdata, { st with userdata := p })

/-- What the window procedure returned: `DefWindowProcW`'s result or the
literal 0 of the handled path.  `invalidAccess` marks a dereference of an
`InnerPtr` whose cell is no longer live — undefined behaviour in the source,
made explicit here. -/
inductive WndResult where
  | defWindowProc
  | zero
  | invalidAccess
  deriving DecidableEq

/-- Everything one `wnd_proc` invocation did: its return value, the state it
left, the waker it invoked (`inner.waker.take()` followed by `wake()`), and
whether it logged the discard of an unconsumed previous message. -/
structure WndOutput (Msg : Type) where
  result : WndResult
  state : SysState Msg
  wokeWaker : Option Nat
  droppedPrev : Bool
  deriving DecidableEq

/-- `wnd_proc::<Msg>(hwnd, msg, wparam, lparam)`, with `cs` the
`lpCreateParams` field of the `CREATESTRUCTW` that `lparam` points to when
`msg = WM_CREATE`.  Mirrors the source order exactly: read the per-instance
slot first and fall back to `DefWindowProcW` when it is null; then, on
`WM_CREATE`, install `cs` into the slot; then decode, falling back to
`DefWindowProcW` on `None`; then buffer the decoded message (logging if it
displaced an unconsumed one) and wake any pending waker. -/
def wnd_proc (decode : FromMessage Msg) (st : SysState Msg)
    (hwnd msg wparam lparam cs : Nat) : WndOutput Msg :=
  match get_inner_ptr st with
  | none => ⟨.defWindowProc, st, none, false⟩
  | some addr =>
    let st₁ := if msg = WM_CREATE then (swap_inner_ptr st (some cs)).2 else st
    match decode hwnd msg wparam lparam with
    | none => ⟨.defWindowProc, st₁, none, false⟩
    | some m =>
      match heapGet st₁.heap addr with
      | none => ⟨.invalidAccess, st₁, none, false⟩
      | some inner =>
        let dropped := inner.message.isSome
        let woke := inner.waker
        ⟨.zero, { st₁ with heap := heapSet st₁.heap addr ⟨some m, none⟩ },
         woke, dropped⟩

/-- Result of `Stream::poll_next`: the stream never yields `Ready(None)`, so
the outcomes are `Ready(Some(msg))` and `Pending` (plus the explicit marker
for dereferencing a dead cell). -/
inductive PollNext (Msg : Type) where
  | readySome (m : Msg)
  | pending
  | invalidAccess
  deriving DecidableEq

/-- `MessageWindow::poll_next(cx)`: through the struct's own `InnerPtr`,
take the buffered message if there is one and return it ready; otherwise
store the context's waker (replacing any previous one) and return pending. -/
def poll_next (mw : MessageWindow) (wakerId : Nat) (st : SysState Msg) :
    PollNext Msg × SysState Msg :=
  match heapGet st.heap mw.inner with
  | none => (.invalidAccess, st)
  | some inner =>
    match inner.message with
    | some m =>
      (.readySome m, { st with heap := heapSet st.heap mw.inner ⟨none, inner.waker⟩ })
    | none =>
      (.pending, { st with heap := heapSet st.heap mw.inner ⟨inner.message, some wakerId⟩ })

/-- The effects of `MessageWindow::drop`, in the order the source performs
them. -/
inductive DropEffect where
  | clearedUserData
  | destroyedWindow
  | freedInner
  deriving DecidableEq

/-- `MessageWindow::drop`: clear the dispatch pointer (`swap_inner_ptr(hwnd,
None)`), then `DestroyWindow`, then free the `Inner` box.  The effect trace
records the order. -/
def messageWindowDrop (mw : MessageWindow) (st : SysState Msg) :
    SysState Msg × List DropEffect :=
  let st₁ := (swap_inner_ptr st none).2
  let st₂ := st₁
  let st₃ := { st₂ with heap := heapRemove st₂.heap mw.inner }
  (st₃, [.clearedUserData, .destroyedWindow, .freedInner])

/-- Environment for `CreateWindowExW` inside `MessageWindow::new`: whether
the call succeeds, the window handle it returns on success, the last-error
code it sets on failure, and the last-error value left behind by the
deallocation run during cleanup (freeing may itself call the OS). -/
structure CreateEnv where
  createSucceeds : Bool
  hwndValue : Nat
  createErrorCode : Nat
  freeClobber : Nat
  deriving DecidableEq

/-- The effects of `MessageWindow::new`, in order. -/
inductive NewEffect where
  | gotClass
  | allocatedInner
  | calledCreateWindow
  | dispatchedCreate
  | readLastError (code : Nat)
  | freedInner
  | reportedFailure (code : Nat)
  deriving DecidableEq

/-- `MessageWindow::<Msg>::new()` for the type with tag `tag`: get (or
register) the class, box a fresh `Inner { message: None, waker: None }`, and
call `CreateWindowExW` passing the box's address as `lpCreateParams`.  On
success Windows initialises the window's `GWLP_USERDATA` slot to null and
synchronously dispatches `WM_CREATE` to `wnd_proc` with a `CREATESTRUCTW`
whose `lpCreateParams` is that address, before `CreateWindowExW` returns.
On failure the source takes the last error first, then frees the box it just
allocated, then panics with the saved error. -/
def messageWindowNew (tag : Nat) (decode : FromMessage Msg) (env : CreateEnv)
    (st : SysState Msg) :
    OsOutcome MessageWindow × SysState Msg × List NewEffect :=
  let reg' := (get_class tag st.registry).2
  let addr := st.nextAddr
  let st₁ : SysState Msg :=
    { st with registry := reg',
              heap := heapSet st.heap addr ⟨none, none⟩,
              nextAddr := addr + 1 }
  if env.createSucceeds then
    let st₂ := { st₁ with userdata := none }
    let out := wnd_proc decode st₂ env.hwndValue WM_CREATE 0 0 addr
    (.ok ⟨env.hwndValue, addr⟩, out.state,
     [.gotClass, .allocatedInner, .calledCreateWindow, .dispatchedCreate])
  else
    let st₂ := { st₁ with lastError := env.createErrorCode }
    let error := st₂.lastError
    let st₃ := { st₂ with heap := heapRemove st₂.heap addr,
                          lastError := env.freeClobber }
    (.panicked error, st₃,
     [.gotClass, .allocatedInner, .calledCreateWindow,
      .readLastError error, .freedInner, .reportedFailure error])

/-! ## Helper lemmas -/

theorem heapGet_heapSet_self (h : List (Nat × Inner Msg)) (a : Nat) (x : Inner Msg) :
    heapGet (heapSet h a x) a = some x := by
  induction h with
  | nil => simp [heapGet, heapSet]
  | cons p rest ih =>
    obtain ⟨b, y⟩ := p
    by_cases hba : b = a
    · simp [heapSet, heapGet, hba]
    · simp [heapSet, heapGet, hba, ih]

theorem heapRemove_heapSet (h : List (Nat × Inner Msg)) (a : Nat) (x : Inner Msg)
    (hfresh : heapGet h a = none) : heapRemove (heapSet h a x) a = h := by
  induction h with
  | nil => simp [heapSet, heapRemove]
  | cons p rest ih =>
    obtain ⟨b, y⟩ := p
    by_cases hba : b = a
    · simp [heapGet, hba] at hfresh
    · simp only [heapGet, hba, if_false] at hfresh
      simp [heapSet, heapRemove, hba, ih hfresh]

theorem lastAction_cons (a : LoopAction M) (l : List (LoopAction M)) (hl : l ≠ []) :
    lastAction (a :: l) = lastAction l := by
  cases l with
  | nil => exact absurd rfl hl
  | cons b rest => rfl

theorem lastAction_ne_nil (l : List (LoopAction M)) (a : LoopAction M)
    (h : lastAction l = some a) : l ≠ [] := by
  intro he
  subst he
  simp [lastAction] at h

/-- A `wnd_proc` invocation against a window whose per-instance slot is null
forwards to `DefWindowProcW` and leaves every piece of state untouched. -/
theorem wnd_proc_null_userdata (decode : FromMessage Msg) (st : SysState Msg)
    (hwnd msg wparam lparam cs : Nat) (hud : st.userdata = none) :
    wnd_proc decode st hwnd msg wparam lparam cs = ⟨.defWindowProc, st, none, false⟩ := by
  unfold wnd_proc get_inner_ptr
  rw [hud]

/-! ## Claim theorems -/

/-- Claim C1 (settled against the code: the claimed behaviour does NOT
happen).  The window's very first callback invocation is the `WM_CREATE`
dispatched synchronously inside `CreateWindowExW`, at which point Windows has
initialised the `GWLP_USERDATA` slot to null.  `wnd_proc` reads that slot
*before* its `WM_CREATE` branch and returns `DefWindowProcW` when the slot is
null, so the shared-state address carried in the creation parameters is never
installed: after a successful `MessageWindow::new` the slot is still null,
and a subsequent callback invocation again falls back to `DefWindowProcW`
instead of retrieving the shared state. -/
theorem wm_create_never_installs_inner_ptr :
    (messageWindowNew 0 (fun _ _ w _ => some w) ⟨true, 100, 17, 23⟩
        ⟨⟨none⟩, [], 0, none, 0⟩).2.1.userdata = none ∧
    (wnd_proc (fun _ _ w _ => some w)
        (messageWindowNew 0 (fun _ _ w _ => some w) ⟨true, 100, 17, 23⟩
          ⟨⟨none⟩, [], 0, none, 0⟩).2.1 100 7 3 4 0).result = .defWindowProc ∧
    (wnd_proc (fun _ _ w _ => some w)
        (messageWindowNew 0 (fun _ _ w _ => some w) ⟨true, 100, 17, 23⟩
          ⟨⟨none⟩, [], 0, none, 0⟩).2.1 100 7 3 4 0).state.heap
      = [(0, ⟨none, none⟩)] :=
  ⟨rfl, rfl, rfl⟩

/-- Claim C2 (settled against the code: the claimed behaviour does NOT
happen).  The `static CLASS: OnceLock` inside the generic `get_class::<Msg>`
is one shared item for every monomorphization, so registration is once per
process but not keyed by the decoded-value type: after the type with tag 0
registers, a constructor for the distinct type with tag 1 is handed the class
registered with type 0's `wnd_proc`, and no class is ever registered with
type 1's callback. -/
theorem get_class_shared_across_types :
    (get_class 1 (get_class 0 ⟨none⟩).2).1 = 0 ∧
    (get_class 1 (get_class 0 ⟨none⟩).2).2.registered = some 0 :=
  ⟨rfl, rfl⟩

/-- Claim C6: `MessageWindow::drop` clears the per-instance slot, then
destroys the window, then frees the shared state, in that strict order (the
effect trace lists them in execution order); and once the slot is cleared,
any further callback invocation returns the default handler's result and
touches nothing, so it cannot reach the shared state. -/
theorem drop_severs_link_before_destroy (mw : MessageWindow) (st : SysState Msg) :
    messageWindowDrop mw st =
      ({ st with userdata := none, heap := heapRemove st.heap mw.inner },
       [.clearedUserData, .destroyedWindow, .freedInner]) ∧
    (∀ (decode : FromMessage Msg) (st' : SysState Msg) (h m w l c : Nat),
      st'.userdata = none →
      wnd_proc decode st' h m w l c = ⟨.defWindowProc, st', none, false⟩) :=
  ⟨rfl, fun decode st' h m w l c hud => wnd_proc_null_userdata decode st' h m w l c hud⟩

/-- Claim C8: `wake_by_ref` returns normally in every environment — it never
panics.  When thread-id resolution fails it logs that and posts nothing;
when posting fails it logs that and reports nothing posted; otherwise it
posts the content-free `WM_NULL` sentinel to the resolved thread. -/
theorem wake_by_ref_never_fails (env : WakeEnv) (h : Nat) :
    (∃ out, wake_by_ref env h = .ok out) ∧
    (env.threadIdOf h = none →
      wake_by_ref env h = .ok ⟨none, [.resolveFailed env.lastError]⟩) ∧
    (∀ tid, env.threadIdOf h = some tid → env.postOk tid = false →
      wake_by_ref env h = .ok ⟨none, [.postFailed env.lastError]⟩) ∧
    (∀ tid, env.threadIdOf h = some tid → env.postOk tid = true →
      wake_by_ref env h = .ok ⟨some (tid, WM_NULL, 0, 0), []⟩) := by
  refine ⟨?_, ?_, ?_, ?_⟩
  · cases htid : env.threadIdOf h with
    | none =>
      exact ⟨⟨none, [.resolveFailed env.lastError]⟩, by unfold wake_by_ref; rw [htid]⟩
    | some tid =>
      by_cases hp : env.postOk tid
      · exact ⟨⟨some (tid, WM_NULL, 0, 0), []⟩,
          by unfold wake_by_ref; rw [htid]; simp [hp]⟩
      · exact ⟨⟨none, [.postFailed env.lastError]⟩,
          by unfold wake_by_ref; rw [htid]; simp [hp]⟩
  · intro htid
    unfold wake_by_ref
    rw [htid]
  · intro tid htid hp
    unfold wake_by_ref
    rw [htid]
    simp [hp]
  · intro tid htid hp
    unfold wake_by_ref
    rw [htid]
    simp [hp]

/-- Claim C9: when `CreateWindowExW` fails, `MessageWindow::new` reads the
OS error first, then frees the just-allocated shared state, then reports the
failure (the effect trace lists the three in execution order); the reported
code is the creation error even though cleanup afterwards overwrote the
thread's last-error, and the allocation is gone from the heap. -/
theorem new_failure_reports_original_error (tag : Nat) (decode : FromMessage Msg)
    (env : CreateEnv) (st : SysState Msg)
    (hfail : env.createSucceeds = false)
    (hfresh : heapGet st.heap st.nextAddr = none) :
    messageWindowNew tag decode env st =
      (.panicked env.createErrorCode,
       { registry := (get_class tag st.registry).2,
         heap := st.heap,
         nextAddr := st.nextAddr + 1,
         userdata := st.userdata,
         lastError := env.freeClobber },
       [.gotClass, .allocatedInner, .calledCreateWindow,
        .readLastError env.createErrorCode, .freedInner,
        .reportedFailure env.createErrorCode]) := by
  unfold messageWindowNew
  rw [hfail]
  simp [heapRemove_heapSet st.heap st.nextAddr _ hfresh]

/-- Claim C10: an event the decode capability maps to "not relevant", on a
window whose slot does hold the shared-state address and which is not the
creation event, is answered with `DefWindowProcW`'s result, and the whole
state — buffered-value slot and pending-waker slot included — is exactly
what it was; no waker is invoked and nothing is logged. -/
theorem irrelevant_event_leaves_state_unchanged (decode : FromMessage Msg)
    (st : SysState Msg) (addr hwnd msg wparam lparam cs : Nat)
    (hud : st.userdata = some addr)
    (hmsg : msg ≠ WM_CREATE)
    (hdec : decode hwnd msg wparam lparam = none) :
    wnd_proc decode st hwnd msg wparam lparam cs = ⟨.defWindowProc, st, none, false⟩ := by
  unfold wnd_proc get_inner_ptr
  rw [hud]
  simp [hmsg, hdec]

/-- One decodable, non-creation event delivered to a window with a live
shared-state cell: the decoded value is buffered (displacing and logging any
unconsumed previous one), the pending waker is taken and invoked, and the
rest of the state is untouched. -/
theorem wnd_proc_decoded (decode : FromMessage Msg) (st : SysState Msg)
    (addr hwnd msg wparam lparam cs : Nat) (inn : Inner Msg) (v : Msg)
    (hud : st.userdata = some addr)
    (hmsg : msg ≠ WM_CREATE)
    (hdec : decode hwnd msg wparam lparam = some v)
    (hlive : heapGet st.heap addr = some inn) :
    wnd_proc decode st hwnd msg wparam lparam cs =
      ⟨.zero, { st with heap := heapSet st.heap addr ⟨some v, none⟩ },
       inn.waker, inn.message.isSome⟩ := by
  unfold wnd_proc get_inner_ptr
  rw [hud]
  simp [hmsg, hdec, hlive, hud]

/-- Claim C4: the buffered slot holds at most one value (it is an `Option`
in the state); delivering a second decodable event before any poll
overwrites the first decoded value and logs its discard, and the single poll
that follows yields the second event's value, leaving the slot empty. -/
theorem last_write_wins (decode : FromMessage Msg) (st : SysState Msg)
    (addr hw k : Nat) (inn₀ : Inner Msg)
    (h₁ m₁ w₁ l₁ c₁ h₂ m₂ w₂ l₂ c₂ : Nat) (v₁ v₂ : Msg)
    (hud : st.userdata = some addr)
    (hlive : heapGet st.heap addr = some inn₀)
    (hm₁ : m₁ ≠ WM_CREATE) (hm₂ : m₂ ≠ WM_CREATE)
    (hd₁ : decode h₁ m₁ w₁ l₁ = some v₁)
    (hd₂ : decode h₂ m₂ w₂ l₂ = some v₂) :
    heapGet (wnd_proc decode st h₁ m₁ w₁ l₁ c₁).state.heap addr = some ⟨some v₁, none⟩ ∧
    (wnd_proc decode (wnd_proc decode st h₁ m₁ w₁ l₁ c₁).state h₂ m₂ w₂ l₂ c₂).droppedPrev
      = true ∧
    heapGet
      (wnd_proc decode (wnd_proc decode st h₁ m₁ w₁ l₁ c₁).state h₂ m₂ w₂ l₂ c₂).state.heap
      addr = some ⟨some v₂, none⟩ ∧
    (poll_next ⟨hw, addr⟩ k
      (wnd_proc decode (wnd_proc decode st h₁ m₁ w₁ l₁ c₁).state h₂ m₂ w₂ l₂ c₂).state).1
      = .readySome v₂ ∧
    heapGet (poll_next ⟨hw, addr⟩ k
      (wnd_proc decode (wnd_proc decode st h₁ m₁ w₁ l₁ c₁).state h₂ m₂ w₂ l₂ c₂).state).2.heap
      addr = some ⟨none, none⟩ := by
  have e₁ := wnd_proc_decoded decode st addr h₁ m₁ w₁ l₁ c₁ inn₀ v₁ hud hm₁ hd₁ hlive
  rw [e₁]
  have hud₁ : ({ st with heap := heapSet st.heap addr ⟨some v₁, none⟩ } :
      SysState Msg).userdata = some addr := hud
  have hlive₁ : heapGet ({ st with heap := heapSet st.heap addr ⟨some v₁, none⟩ } :
      SysState Msg).heap addr = some ⟨some v₁, none⟩ :=
    heapGet_heapSet_self st.heap addr _
  have e₂ := wnd_proc_decoded decode _ addr h₂ m₂ w₂ l₂ c₂ ⟨some v₁, none⟩ v₂
    hud₁ hm₂ hd₂ hlive₁
  rw [e₂]
  refine ⟨hlive₁, rfl, ?_, ?_, ?_⟩
  · exact heapGet_heapSet_self _ addr _
  · unfold poll_next
    simp [heapGet_heapSet_self]
  · unfold poll_next
    simp [heapGet_heapSet_self, heapSet]

/-- Claim C3: in every `block_on` run the action trace never blocks on the
queue except immediately after a poll (so the very first wait, like every
other, is preceded by a poll), and a run that ends in success ends on the
poll that yielded the value — no wait and no further poll follows it. -/
theorem block_on_polls_before_every_wait (F : FutureModel σ M T)
    (q : List (QueueItem M)) (s : σ) :
    waitsGuarded (block_on F q s).2 = true ∧
    ∀ v, (block_on F q s).1 = .ok v → lastAction (block_on F q s).2 = some .polled := by
  induction q generalizing s with
  | nil =>
    cases hp : F.poll s with
    | mk pr s₁ =>
      cases pr with
      | ready v => simp [block_on, hp, waitsGuarded, lastAction]
      | pending => simp [block_on, hp, waitsGuarded, lastAction]
  | cons item rest ih =>
    cases hp : F.poll s with
    | mk pr s₁ =>
      cases pr with
      | ready v => simp [block_on, hp, waitsGuarded, lastAction]
      | pending =>
        cases item with
        | error c => simp [block_on, hp, waitsGuarded, lastAction]
        | quit => simp [block_on, hp, waitsGuarded, lastAction]
        | message m =>
          have ihm := ih (F.dispatch s₁ m)
          constructor
          · simp only [block_on, hp, waitsGuarded]
            exact ihm.1
          · intro v hv
            simp only [block_on, hp] at hv ⊢
            have hlast := ihm.2 v hv
            have hne := lastAction_ne_nil _ _ hlast
            have hstep :
                lastAction (LoopAction.polled :: .waited :: .dispatched m ::
                  (block_on F rest (F.dispatch s₁ m)).2)
                = lastAction (LoopAction.dispatched m ::
                  (block_on F rest (F.dispatch s₁ m)).2) := rfl
            rw [hstep, lastAction_cons _ _ hne]
            exact hlast

/-- Claim C5: a quit signal from the blocking wait makes `block_on` return
the typed should-exit outcome, and the returning wait is the last action of
the run — the computation is never polled again after it. -/
theorem block_on_quit_stops_polling (F : FutureModel σ M T)
    (q : List (QueueItem M)) (s : σ) :
    (block_on F q s).1 = .shouldExit →
    lastAction (block_on F q s).2 = some .waited := by
  induction q generalizing s with
  | nil =>
    intro hq
    cases hp : F.poll s with
    | mk pr s₁ =>
      cases pr with
      | ready v => simp [block_on, hp] at hq
      | pending => simp [block_on, hp] at hq
  | cons item rest ih =>
    intro hq
    cases hp : F.poll s with
    | mk pr s₁ =>
      cases pr with
      | ready v => simp [block_on, hp] at hq
      | pending =>
        cases item with
        | error c => simp [block_on, hp] at hq
        | quit => simp [block_on, hp, lastAction]
        | message m =>
          simp only [block_on, hp] at hq ⊢
          have hlast := ih (F.dispatch s₁ m) hq
          have hne := lastAction_ne_nil _ _ hlast
          have hstep :
              lastAction (LoopAction.polled :: .waited :: .dispatched m ::
                (block_on F rest (F.dispatch s₁ m)).2)
              = lastAction (LoopAction.dispatched m ::
                (block_on F rest (F.dispatch s₁ m)).2) := rfl
          rw [hstep, lastAction_cons _ _ hne]
          exact hlast

theorem mem_handleSeq (s n x : Nat) : x ∈ handleSeq s n ↔ s ≤ x ∧ x < s + n := by
  induction n generalizing s with
  | zero =>
    simp [handleSeq]
  | succ n ih =>
    simp [handleSeq, ih (s + 1)]
    omega

theorem handleSeq_nodup (s n : Nat) : (handleSeq s n).Nodup := by
  induction n generalizing s with
  | zero => simp [handleSeq]
  | succ n ih =>
    simp only [handleSeq, List.nodup_cons]
    exact ⟨by simp [mem_handleSeq], ih (s + 1)⟩

theorem handleSeq_length (s n : Nat) : (handleSeq s n).length = n := by
  induction n generalizing s with
  | zero => rfl
  | succ n ih => simp [handleSeq, ih (s + 1)]

/-- What `n` successive waker clones do to the handle table: they are handed
the `n` consecutive fresh handle values, and all of them are added to the
open set. -/
theorem mkClones_spec (base n : Nat) (st : OsHandles) :
    (mkClones base n st).1 = handleSeq st.nextHandle n ∧
    (mkClones base n st).2.nextHandle = st.nextHandle + n ∧
    (mkClones base n st).2.openHandles
      = st.openHandles ∪ (handleSeq st.nextHandle n).toFinset := by
  induction n generalizing st with
  | zero => simp [mkClones, handleSeq]
  | succ n ih =>
    obtain ⟨h1, h2, h3⟩ := ih ⟨st.nextHandle + 1, insert st.nextHandle st.openHandles⟩
    refine ⟨?_, ?_, ?_⟩
    · simp only [mkClones, wakerClone, new_raw, duplicateHandle, handleSeq]
      rw [h1]
    · simp only [mkClones, wakerClone, new_raw, duplicateHandle]
      rw [h2]
      show st.nextHandle + 1 + n = st.nextHandle + (n + 1)
      omega
    · simp only [mkClones, wakerClone, new_raw, duplicateHandle, handleSeq,
        List.toFinset_cons]
      rw [h3]
      simp [Finset.insert_union, Finset.union_insert]

/-- Releasing a pairwise-distinct batch of handles, none of which is in the
base set, closes each exactly once and restores the base set. -/
theorem releaseAll_spec (order : List Nat) (base : Finset Nat) (next : Nat)
    (hnd : order.Nodup) (hdisj : ∀ x ∈ order, x ∉ base) :
    releaseAll order ⟨next, base ∪ order.toFinset⟩
      = (List.replicate order.length true, ⟨next, base⟩) := by
  induction order with
  | nil => simp [releaseAll]
  | cons a l ih =>
    have hal : a ∉ l := (List.nodup_cons.mp hnd).1
    have hlnd : l.Nodup := (List.nodup_cons.mp hnd).2
    have hab : a ∉ base := hdisj a (List.mem_cons_self a l)
    have hbase : base ∪ (a :: l).toFinset = insert a (base ∪ l.toFinset) := by
      simp [List.toFinset_cons, Finset.union_insert]
    have hnotin : a ∉ base ∪ l.toFinset := by
      simp only [Finset.mem_union, not_or]
      exact ⟨hab, fun hm => hal (List.mem_toFinset.mp hm)⟩
    rw [hbase]
    simp only [releaseAll, wakerDrop, closeHandle]
    rw [Finset.erase_insert hnotin]
    rw [ih hlnd (fun x hx => hdisj x (List.mem_cons_of_mem a hx))]
    simp [Finset.mem_insert, List.replicate_succ]

/-- Claim C7: every clone is handed a fresh handle — the batch of `n` clones
consists of `n` pairwise-distinct handles, none previously open — and
releasing them in any order performs exactly `n` close operations, each of
which finds its handle open (no double release), and returns the open set to
exactly what it was before the clones existed (no leak). -/
theorem waker_clones_release_independently (st : OsHandles) (base n : Nat)
    (order : List Nat) (hfresh : st.Fresh)
    (hperm : List.Perm order (mkClones base n st).1) :
    (mkClones base n st).1.Nodup ∧
    (∀ x ∈ (mkClones base n st).1, x ∉ st.openHandles) ∧
    (mkClones base n st).1.length = n ∧
    (releaseAll order (mkClones base n st).2).1 = List.replicate n true ∧
    (releaseAll order (mkClones base n st).2).2.openHandles = st.openHandles := by
  obtain ⟨hc, hn, ho⟩ := mkClones_spec base n st
  have hxfresh : ∀ x ∈ (mkClones base n st).1, x ∉ st.openHandles := by
    intro x hx hopen
    rw [hc] at hx
    have hb := (mem_handleSeq st.nextHandle n x).mp hx
    exact absurd (hfresh x hopen) (by omega)
  have hordisj : ∀ x ∈ order, x ∉ st.openHandles := fun x hx =>
    hxfresh x (hperm.mem_iff.mp hx)
  have hornd : order.Nodup := by
    rw [hperm.nodup_iff]
    rw [hc]
    exact handleSeq_nodup st.nextHandle n
  have horfin : order.toFinset = (handleSeq st.nextHandle n).toFinset := by
    ext x
    simp only [List.mem_toFinset]
    rw [hperm.mem_iff, hc]
  have hstate : (mkClones base n st).2
      = ⟨st.nextHandle + n, st.openHandles ∪ order.toFinset⟩ := by
    cases hmk : (mkClones base n st).2 with
    | mk nh oh =>
      rw [hmk] at hn ho
      simp at hn ho
      rw [horfin]
      simp [hn, ho]
  have hrel := releaseAll_spec order st.openHandles (st.nextHandle + n) hornd hordisj
  have horlen : order.length = n := by
    rw [hperm.length_eq, hc, handleSeq_length]
  refine ⟨?_, hxfresh, ?_, ?_, ?_⟩
  · rw [hc]
    exact handleSeq_nodup st.nextHandle n
  · rw [hc, handleSeq_length]
  · rw [hstate, hrel, horlen]
  · rw [hstate, hrel]

/-! ## Witnesses: the claim theorems applied at concrete inputs -/

/-- Witness for C3: a future that is pending on its first poll and ready on
the second, with one message in the queue. -/
theorem block_on_polls_before_every_wait_witness :
    waitsGuarded (block_on
      (⟨fun s => if s = 0 then (.pending, s) else (.ready s, s), fun _ m => m⟩ :
        FutureModel Nat Nat Nat) [.message 5] 0).2 = true ∧
    lastAction (block_on
      (⟨fun s => if s = 0 then (.pending, s) else (.ready s, s), fun _ m => m⟩ :
        FutureModel Nat Nat Nat) [.message 5] 0).2 = some .polled := by
  have h := block_on_polls_before_every_wait
    (⟨fun s => if s = 0 then (.pending, s) else (.ready s, s), fun _ m => m⟩ :
      FutureModel Nat Nat Nat) [.message 5] 0
  exact ⟨h.1, h.2 5 rfl⟩

/-- Witness for C5: a never-ready future against a queue that quits at
once. -/
theorem block_on_quit_stops_polling_witness :
    lastAction (block_on
      (⟨fun s => (.pending, s), fun s _ => s⟩ : FutureModel Nat Nat Nat)
      [.quit] 0).2 = some .waited :=
  block_on_quit_stops_polling
    (⟨fun s => (.pending, s), fun s _ => s⟩ : FutureModel Nat Nat Nat) [.quit] 0 rfl

/-- Witness for C4: two decodable events (values 22 then 33) delivered
back-to-back, then one poll: the poll yields 33 and the second delivery
logged the discard of 22. -/
theorem last_write_wins_witness :
    (poll_next ⟨100, 7⟩ 9
      (wnd_proc ((fun _ _ w _ => some w) : FromMessage Nat)
        (wnd_proc ((fun _ _ w _ => some w) : FromMessage Nat)
          ⟨⟨none⟩, [(7, ⟨none, none⟩)], 8, some 7, 0⟩ 100 5 22 0 0).state
        100 5 33 0 0).state).1 = .readySome 33 ∧
    (wnd_proc ((fun _ _ w _ => some w) : FromMessage Nat)
      (wnd_proc ((fun _ _ w _ => some w) : FromMessage Nat)
        ⟨⟨none⟩, [(7, ⟨none, none⟩)], 8, some 7, 0⟩ 100 5 22 0 0).state
      100 5 33 0 0).droppedPrev = true := by
  have h := last_write_wins ((fun _ _ w _ => some w) : FromMessage Nat)
    ⟨⟨none⟩, [(7, ⟨none, none⟩)], 8, some 7, 0⟩ 7 100 9 ⟨none, none⟩
    100 5 22 0 0 100 5 33 0 0 22 33 rfl rfl (by decide) (by decide) rfl rfl
  exact ⟨h.2.2.2.1, h.2.1⟩

/-- Witness for C6: dropping a window whose cell is live clears the slot,
then destroys, then frees; a callback arriving after the severance forwards
to the default handler with nothing touched. -/
theorem drop_severs_link_before_destroy_witness :
    messageWindowDrop ⟨100, 7⟩
        (⟨⟨none⟩, [(7, ⟨none, none⟩)], 8, some 7, 0⟩ : SysState Nat)
      = (⟨⟨none⟩, [], 8, none, 0⟩, [.clearedUserData, .destroyedWindow, .freedInner]) ∧
    wnd_proc ((fun _ _ w _ => some w) : FromMessage Nat)
        ⟨⟨none⟩, [], 8, none, 0⟩ 100 5 22 0 0
      = ⟨.defWindowProc, ⟨⟨none⟩, [], 8, none, 0⟩, none, false⟩ := by
  have h := drop_severs_link_before_destroy ⟨100, 7⟩
    (⟨⟨none⟩, [(7, ⟨none, none⟩)], 8, some 7, 0⟩ : SysState Nat)
  exact ⟨h.1, h.2 (fun _ _ w _ => some w) ⟨⟨none⟩, [], 8, none, 0⟩ 100 5 22 0 0 rfl⟩

/-- Witness for C7: three clones issued from handle table `⟨3, {0, 2}⟩` are
handles 3, 4, 5; releasing them in the order 4, 3, 5 closes each exactly
once and restores the open set. -/
theorem waker_clones_release_independently_witness :
    (releaseAll [4, 3, 5] (mkClones 9 3 ⟨3, {0, 2}⟩).2).1 = List.replicate 3 true ∧
    (releaseAll [4, 3, 5] (mkClones 9 3 ⟨3, {0, 2}⟩).2).2.openHandles = {0, 2} := by
  have h := waker_clones_release_independently ⟨3, {0, 2}⟩ 9 3 [4, 3, 5]
    (by decide) (by decide)
  exact ⟨h.2.2.2.1, h.2.2.2.2⟩

/-- Witness for C8: a handle whose thread is gone, a post that fails, and a
post that succeeds — all three return normally. -/
theorem wake_by_ref_never_fails_witness :
    wake_by_ref ⟨fun _ => none, fun _ => true, 5⟩ 3 = .ok ⟨none, [.resolveFailed 5]⟩ ∧
    wake_by_ref ⟨fun _ => some 42, fun _ => false, 6⟩ 3 = .ok ⟨none, [.postFailed 6]⟩ ∧
    wake_by_ref ⟨fun _ => some 42, fun _ => true, 0⟩ 3 = .ok ⟨some (42, WM_NULL, 0, 0), []⟩ := by
  refine ⟨?_, ?_, ?_⟩
  · exact (wake_by_ref_never_fails ⟨fun _ => none, fun _ => true, 5⟩ 3).2.1 rfl
  · exact (wake_by_ref_never_fails ⟨fun _ => some 42, fun _ => false, 6⟩ 3).2.2.1 42 rfl rfl
  · exact (wake_by_ref_never_fails ⟨fun _ => some 42, fun _ => true, 0⟩ 3).2.2.2 42 rfl rfl

/-- Witness for C9: creation fails with error 17, cleanup clobbers the
last-error to 23, yet the reported code is 17 and the allocation is gone. -/
theorem new_failure_reports_original_error_witness :
    messageWindowNew 0 ((fun _ _ w _ => some w) : FromMessage Nat) ⟨false, 100, 17, 23⟩
        ⟨⟨none⟩, [], 5, none, 0⟩
      = (.panicked 17, ⟨⟨some 0⟩, [], 6, none, 23⟩,
         [.gotClass, .allocatedInner, .calledCreateWindow,
          .readLastError 17, .freedInner, .reportedFailure 17]) :=
  new_failure_reports_original_error 0 ((fun _ _ w _ => some w) : FromMessage Nat)
    ⟨false, 100, 17, 23⟩ ⟨⟨none⟩, [], 5, none, 0⟩ rfl rfl

/-- Witness for C10: a non-creation event the decoder rejects, delivered to
a window with installed pointer and a buffered value and waker in place:
default result, identical state. -/
theorem irrelevant_event_leaves_state_unchanged_witness :
    wnd_proc ((fun _ _ _ _ => none) : FromMessage Nat)
        ⟨⟨none⟩, [(7, ⟨some 4, some 9⟩)], 8, some 7, 0⟩ 100 5 22 0 0
      = ⟨.defWindowProc, ⟨⟨none⟩, [(7, ⟨some 4, some 9⟩)], 8, some 7, 0⟩, none, false⟩ :=
  irrelevant_event_leaves_state_unchanged ((fun _ _ _ _ => none) : FromMessage Nat)
    ⟨⟨none⟩, [(7, ⟨some 4, some 9⟩)], 8, some 7, 0⟩ 7 100 5 22 0 0 rfl (by decide) rfl

end WinExec
